import Mathlib

set_option maxRecDepth 10000

/-!
Shallow embedding of the record-normalization and lot-aggregation engine of
src/active_tender.py (TED tender fetcher, version 7.0), together with proofs
about it.

Modelling conventions:
* JSON-like raw field values are the inductive type Value; a RawRecord is an
  association list from field name to Value, mirroring a Python dict (keys
  are unique in the inputs the program receives, and lookup takes the first
  binding).  Python truthiness is the function truthy.
* Python floats are modelled as rationals; the decimal literals of the
  source (exchange rates, thresholds) are exact in this model.
* The datetime library and the wall clock (datetime.fromisoformat,
  datetime.now) are abstracted into a DateOracle parameter; everything the
  program does around them (truthiness guards, the Z-suffix rewrite, the
  null-propagation of parse failures) is modelled explicitly.
* Text processing for the lot-count heuristics is modelled over lists of
  characters with an ASCII model of str.lower/str.upper and of the regular
  expression classes \d and \w.
-/

/-- A raw JSON-like value as delivered by the TED API: null, scalar
(boolean, number, string), array, or object. -/
inductive Value where
  | vNull : Value
  | vBool (b : Bool) : Value
  | vNum (q : ℚ) : Value
  | vStr (s : String) : Value
  | vList (xs : List Value) : Value
  | vDict (kvs : List (String × Value)) : Value

mutual

/-- Structural boolean equality on Value (mutually with lists and
association lists), used to obtain decidable equality. -/
def Value.beq : Value → Value → Bool
  | .vNull, .vNull => true
  | .vBool a, .vBool b => a == b
  | .vNum a, .vNum b => a == b
  | .vStr a, .vStr b => a == b
  | .vList a, .vList b => Value.beqList a b
  | .vDict a, .vDict b => Value.beqDict a b
  | _, _ => false

/-- Boolean equality on lists of Value. -/
def Value.beqList : List Value → List Value → Bool
  | [], [] => true
  | x :: xs, y :: ys => Value.beq x y && Value.beqList xs ys
  | _, _ => false

/-- Boolean equality on association lists of Value. -/
def Value.beqDict : List (String × Value) → List (String × Value) → Bool
  | [], [] => true
  | (ka, va) :: xs, (kb, vb) :: ys => ka == kb && Value.beq va vb && Value.beqDict xs ys
  | _, _ => false

end

mutual

/-- Value.beq decides propositional equality. -/
theorem Value.beq_iff : ∀ a b : Value, Value.beq a b = true ↔ a = b
  | .vNull, b => by cases b <;> simp [Value.beq]
  | .vBool a, b => by cases b <;> simp [Value.beq]
  | .vNum a, b => by cases b <;> simp [Value.beq]
  | .vStr a, b => by cases b <;> simp [Value.beq]
  | .vList a, b => by
    cases b <;> simp [Value.beq]
    exact Value.beqList_iff a _
  | .vDict a, b => by
    cases b <;> simp [Value.beq]
    exact Value.beqDict_iff a _

/-- Value.beqList decides propositional equality. -/
theorem Value.beqList_iff : ∀ a b : List Value, Value.beqList a b = true ↔ a = b
  | [], [] => by simp [Value.beqList]
  | x :: xs, y :: ys => by
    simp [Value.beqList, Value.beq_iff x y, Value.beqList_iff xs ys]
  | [], _ :: _ => by simp [Value.beqList]
  | _ :: _, [] => by simp [Value.beqList]

/-- Value.beqDict decides propositional equality. -/
theorem Value.beqDict_iff : ∀ a b : List (String × Value), Value.beqDict a b = true ↔ a = b
  | [], [] => by simp [Value.beqDict]
  | (ka, va) :: xs, (kb, vb) :: ys => by
    simp [Value.beqDict, Value.beq_iff va vb, Value.beqDict_iff xs ys]
  | [], _ :: _ => by simp [Value.beqDict]
  | _ :: _, [] => by simp [Value.beqDict]

end

instance : DecidableEq Value := fun a b =>
  decidable_of_iff (Value.beq a b = true) (Value.beq_iff a b)

/-- Python truthiness for the modelled value shapes: None, False, 0, "",
empty list and empty dict are falsy, everything else is truthy. -/
def truthy : Value → Bool
  | .vNull => false
  | .vBool b => b
  | .vNum q => decide (q ≠ 0)
  | .vStr s => s != ""
  | .vList xs => !xs.isEmpty
  | .vDict kvs => !kvs.isEmpty

/-- One raw API record: a mapping from field name to raw value
(Python dict, modelled as an association list with unique keys). -/
abbrev RawRecord := List (String × Value)

/-- First binding of a key in an association list (Python dict lookup). -/
def lookupField (kvs : List (String × Value)) (k : String) : Option Value :=
  (kvs.find? (fun p => p.1 == k)).map (fun p => p.2)

/-- Python dict.get(k) with default None. -/
def rget (r : RawRecord) (k : String) : Value :=
  (lookupField r k).getD .vNull

/-- Python dict.get(k, d) with an explicit default. -/
def rgetD (r : RawRecord) (k : String) (d : Value) : Value :=
  (lookupField r k).getD d

/-- The priority language order of get_value (source line 176). -/
def priorityLangs : List String :=
  ["eng", "dan", "deu", "swe", "nor", "fra", "spa", "ita"]

/-- The rule applied to a value found inside the dict branch of get_value
(source lines 179-181 and 186-188): a non-empty list yields its first
element, otherwise the value itself if truthy, else the default. -/
def firstOrTruthy (value : Value) (default : Value) : Value :=
  match value with
  | .vList (x :: _) => x
  | v => if truthy v then v else default

/-- get_value (source lines 168-194): extract one representative value from
the TED multilingual data structure.  None yields the default; a dict is
resolved through the priority-language list, falling back to its first
value; a non-empty list yields its first element; anything else is returned
if truthy, else the default. -/
def get_value (data : Value) (default : Value) : Value :=
  match data with
  | .vNull => default
  | .vDict kvs =>
    match priorityLangs.findSome? (fun lang => lookupField kvs lang) with
    | some value => firstOrTruthy value default
    | none =>
      match kvs with
      | (_, first_value) :: _ => firstOrTruthy first_value default
      | [] => default
  | .vList (x :: _) => x
  | d => if truthy d then d else default

/-- ASCII model of str.lower on one character. -/
def lowerChar (c : Char) : Char :=
  if 'A' ≤ c ∧ c ≤ 'Z' then Char.ofNat (c.toNat + 32) else c

/-- ASCII model of str.upper on one character. -/
def upperChar (c : Char) : Char :=
  if 'a' ≤ c ∧ c ≤ 'z' then Char.ofNat (c.toNat - 32) else c

/-- ASCII model of str.lower. -/
def lowerString (s : String) : String := ⟨s.data.map lowerChar⟩

/-- parse_boolean (source lines 222-231): None is false, booleans pass
through, a string is false exactly when its lower-casing is in the
false-meaning stoplist, anything else follows truthiness. -/
def parse_boolean (value : Value) : Bool :=
  match value with
  | .vNull => false
  | .vBool b => b
  | .vStr s => !(["false", "none", "", "no", "not-allowed"].contains (lowerString s))
  | v => truthy v

/-- CURRENCY_RATES (source lines 152-162): static exchange-rate table into
the reference currency (EUR). -/
def CURRENCY_RATES : List (String × ℚ) :=
  [("EUR", 1.0), ("DKK", 0.134), ("NOK", 0.084), ("SEK", 0.089), ("USD", 0.95),
   ("GBP", 1.17), ("PLN", 0.23), ("CZK", 0.040), ("HUF", 0.0025)]

/-- CURRENCY_RATES.get(code): the table lookup used on line 533/551. -/
def ratesLookup (code : String) : Option ℚ :=
  (CURRENCY_RATES.find? (fun p => p.1 == code)).map (fun p => p.2)

/-- Digit list to number, most significant first (Python int on a digit
string; leading zeros allowed). -/
def natOfDigits (cs : List Char) : Nat :=
  cs.foldl (fun n c => n * 10 + (c.toNat - 48)) 0

/-- Model of Python float(s) on a string, restricted to plain decimal
notation (optional surrounding spaces, optional sign, digits with an
optional fractional part); none models float() raising ValueError.
Exponent/inf/nan forms are outside the modelled input domain. -/
def parseDecimal? (s : String) : Option ℚ :=
  let cs := s.data.dropWhile (fun c => c == ' ')
  let cs := (cs.reverse.dropWhile (fun c => c == ' ')).reverse
  let signed : ℚ × List Char :=
    match cs with
    | '-' :: rest => (-1, rest)
    | '+' :: rest => (1, rest)
    | rest => (1, rest)
  let ip := signed.2.takeWhile Char.isDigit
  let rest := signed.2.dropWhile Char.isDigit
  match rest with
  | [] => if ip.isEmpty then none else some (signed.1 * natOfDigits ip)
  | '.' :: frac =>
    let fp := frac.takeWhile Char.isDigit
    if (frac.dropWhile Char.isDigit).isEmpty && !(ip.isEmpty && fp.isEmpty) then
      some (signed.1 * ((natOfDigits ip : ℚ) + (natOfDigits fp : ℚ) / (10 : ℚ) ^ fp.length))
    else none
  | _ => none

/-- Python float(x) on a raw value: numbers pass through, booleans become
0/1, strings are parsed as decimals; none models a raised
ValueError/TypeError (caught by the surrounding try blocks). -/
def pyFloat? : Value → Option ℚ
  | .vNum q => some q
  | .vBool b => some (if b then 1 else 0)
  | .vStr s => parseDecimal? s
  | _ => none

/-- Strip an expected literal prefix, returning the remainder. -/
def stripPre : List Char → List Char → Option (List Char)
  | [], s => some s
  | _ :: _, [] => none
  | p :: ps, c :: cs => if p == c then stripPre ps cs else none

/-- ASCII model of the regular-expression class backslash-w. -/
def isWordChar (c : Char) : Bool := c.isAlphanum || c == '_'

/-- Try to match literal-prefix, one-or-more class characters (the capture
group), literal-suffix at the start of s.  Because every suffix used in the
source patterns starts with a space, which is in neither character class,
greedy matching with backtracking coincides with maximal munch. -/
def matchCapture (pre : List Char) (cls : Char → Bool) (post : List Char)
    (s : List Char) : Option (List Char) :=
  match stripPre pre s with
  | none => none
  | some rest =>
    let cap := rest.takeWhile cls
    if cap.isEmpty then none
    else
      match stripPre post (rest.dropWhile cls) with
      | none => none
      | some _ => some cap

/-- re.search for a prefix-capture-suffix pattern: the capture of the
leftmost match. -/
def searchCapture (pre : List Char) (cls : Char → Bool) (post : List Char) :
    List Char → Option (List Char)
  | [] => none
  | c :: cs =>
    match matchCapture pre cls post (c :: cs) with
    | some cap => some cap
    | none => searchCapture pre cls post cs

/-- One match attempt of LOT-digits at the start of s: the captured digits
and the remainder after the whole match. -/
def lotMentionAt (s : List Char) : Option (List Char × List Char) :=
  match stripPre ['L', 'O', 'T', '-'] s with
  | none => none
  | some rest =>
    if (rest.takeWhile Char.isDigit).isEmpty then none
    else some (rest.takeWhile Char.isDigit, rest.dropWhile Char.isDigit)

/-- Scanning loop for findLotMentions.  Every step consumes at least one
character, so fuel equal to the text length makes the recursion structural
without changing the result. -/
def findLotMentionsAux (fuel : Nat) (s : List Char) : List (List Char) :=
  match fuel with
  | 0 => []
  | fuel + 1 =>
    match s with
    | [] => []
    | c :: cs =>
      match lotMentionAt (c :: cs) with
      | some (cap, rest) => cap :: findLotMentionsAux fuel rest
      | none => findLotMentionsAux fuel cs

/-- re.findall of LOT-digits over a text: the capture lists of all
non-overlapping matches, scanning left to right (source line 288). -/
def findLotMentions (s : List Char) : List (List Char) :=
  findLotMentionsAux s.length s

/-- The descriptive text fields scanned by extract_lot_count_from_text
(source line 252). -/
def text_fields : List String :=
  ["description-lot", "description-proc", "procedure-features", "title-lot", "notice-title"]

/-- The lowercased text fragments collected at the top of
extract_lot_count_from_text (source lines 250-257): for each field, the raw
value must be truthy, its get_value resolution must be truthy, and it is
then lowercased.  A truthy non-string resolution would raise AttributeError
in the source (uncaught); the modelled input domain has string text
fields. -/
def collectTexts (notice : RawRecord) : List (List Char) :=
  text_fields.filterMap (fun field =>
    if truthy (rget notice field) then
      match get_value (rget notice field) .vNull with
      | .vStr s => if s == "" then none else some (s.data.map lowerChar)
      | _ => none
    else none)

/-- Python " ".join. -/
def joinSpace : List (List Char) → List Char
  | [] => []
  | [t] => t
  | t :: ts => t ++ ' ' :: joinSpace ts

/-- The Danish number-word table of extract_lot_count_from_text
(source lines 271-274). -/
def danish_numbers : List (String × Nat) :=
  [("to", 2), ("tre", 3), ("fire", 4), ("fem", 5), ("seks", 6),
   ("syv", 7), ("otte", 8), ("ni", 9), ("ti", 10)]

/-- Character class of a capture group: digits or word characters. -/
inductive PatClass where
  | digits : PatClass
  | wordChars : PatClass

/-- Interpretation of a capture class. -/
def patClassFn : PatClass → Char → Bool
  | .digits => Char.isDigit
  | .wordChars => isWordChar

/-- The ordered pattern list of extract_lot_count_from_text
(source lines 262-268), each as literal-prefix, capture class,
literal-suffix. -/
def lot_patterns : List (String × PatClass × String) :=
  [("divided into ", .digits, " lots"),
   ("", .digits, " separate lots"),
   ("opdelt i ", .digits, " delaftaler"),
   ("", .digits, " delaftaler"),
   ("de ", .wordChars, " kategorier")]

/-- The pattern loop of extract_lot_count_from_text (source lines 276-285):
for the first pattern that matches, return the capture as a number if it is
all digits, else through the Danish number-word table; a capture that is
neither falls through to the next pattern. -/
def tryPatterns : List (String × PatClass × String) → List Char → Option Nat
  | [], _ => none
  | (pre, cls, post) :: rest, full_text =>
    match searchCapture pre.data (patClassFn cls) post.data full_text with
    | some cap =>
      if cap.all Char.isDigit then some (natOfDigits cap)
      else
        match danish_numbers.find? (fun p => p.1.data == cap) with
        | some p => some p.2
        | none => tryPatterns rest full_text
    | none => tryPatterns rest full_text

/-- The LOT-mention fallback of extract_lot_count_from_text (source lines
287-294): on the uppercased text, collect all LOT-digit captures; with more
than one mention, return the highest positive lot number, or none when no
mention is positive. -/
def maxLotMention (full_text : List Char) : Option Nat :=
  let lot_mentions := findLotMentions (full_text.map upperChar)
  if lot_mentions.length > 1 then
    match (lot_mentions.map natOfDigits).filter (fun n => decide (0 < n)) with
    | [] => none
    | n :: ns => some (ns.foldl max n)
  else none

/-- extract_lot_count_from_text (source lines 238-296): lot count inferred
from the descriptive free text, or none. -/
def extract_lot_count_from_text (notice : RawRecord) : Option Nat :=
  match tryPatterns lot_patterns (joinSpace (collectTexts notice)) with
  | some n => some n
  | none => maxLotMention (joinSpace (collectTexts notice))

/-- The datetime-library and wall-clock dependent kernels of parse_date and
calculate_days_until.  isoParse s models
datetime.fromisoformat(s).isoformat(), none when fromisoformat raises;
dayDiff s models (datetime.fromisoformat(s) - datetime.now(tz)).days, none
when parsing raises.  dayDiff reads the system clock, so it is a parameter
of the whole pipeline rather than a function of the input alone. -/
structure DateOracle where
  isoParse : String → Option String
  dayDiff : String → Option Int

/-- Python s.replace("Z", "+00:00") on the character list. -/
def replaceZChars : List Char → List Char
  | [] => []
  | c :: cs =>
    if c == 'Z' then '+' :: '0' :: '0' :: ':' :: '0' :: '0' :: replaceZChars cs
    else c :: replaceZChars cs

/-- parse_date (source lines 197-207): a truthy raw value is resolved with
get_value; a string result has its Z suffix rewritten to +00:00 and is
parsed; every failure path yields none. -/
def parse_date (o : DateOracle) (date_str : Value) : Option String :=
  if truthy date_str then
    match get_value date_str .vNull with
    | .vStr s => o.isoParse ⟨replaceZChars s.data⟩
    | _ => none
  else none

/-- calculate_days_until (source lines 210-219): none for a missing or
empty deadline, otherwise the signed day difference against now (through
the oracle, which also models the internal try/except as none). -/
def calculate_days_until (o : DateOracle) (deadline_iso : Option String) : Option Int :=
  match deadline_iso with
  | some s => if s == "" then none else o.dayDiff s
  | none => none

/-- Python `a or b` on optional strings: a falsy left operand (None or "")
yields the right operand. -/
def pyOrStr (a b : Option String) : Option String :=
  match a with
  | some s => if s == "" then b else some s
  | none => b

/-- The urgency classification of parse_tender (source lines 477-487). -/
def urgency_of (days_until : Option Int) : String :=
  match days_until with
  | some d =>
    if d < 0 then "EXPIRED"
    else if d ≤ 7 then "CRITICAL"
    else if d ≤ 14 then "MODERATE"
    else "NORMAL"
  | none => "UNKNOWN"

/-- The financial state produced by the extraction blocks of parse_tender:
the value_eur, value_original and currency variables (source lines
517-519). -/
structure Financial where
  value_eur : Option ℚ
  value_original : Option ℚ
  currency : Option Value
deriving DecidableEq

/-- The estimated-value-cur-lot block of parse_tender (source lines
521-536).  The mutable-state effect of the try/except is modelled exactly:
currency is assigned before the amount guard, value_original before the
rate lookup, so a float() failure leaves only currency set and a non-string
currency (whose .upper() raises) leaves currency and value_original set. -/
def financial_from_value_cur (notice : RawRecord) : Financial :=
  let raw := rget notice "estimated-value-cur-lot"
  if truthy raw then
    match (match raw with | .vList (x :: _) => x | v => v) with
    | .vDict kvs =>
      let amount := (lookupField kvs "amount").getD .vNull
      let cur := (lookupField kvs "currency").getD (.vStr "EUR")
      if truthy amount then
        match pyFloat? amount with
        | none => ⟨none, none, some cur⟩
        | some a =>
          match cur with
          | .vStr c => ⟨some (a * ((ratesLookup ⟨c.data.map upperChar⟩).getD 1.0)), some a, some cur⟩
          | _ => ⟨none, some a, some cur⟩
      else ⟨none, none, some cur⟩
    | _ => ⟨none, none, none⟩
  else ⟨none, none, none⟩

/-- The estimated-value-lot fallback block of parse_tender (source lines
538-558), entered only when the first block produced no value_eur; it reads
amount from the amount field or, if falsy, the value field, and also
accepts a bare number (a bare boolean is a Python int and follows the
numeric branch). -/
def financial_fallback (notice : RawRecord) (prev : Financial) : Financial :=
  if prev.value_eur.isSome then prev
  else
    let raw := rget notice "estimated-value-lot"
    if truthy raw then
      match (match raw with | .vList (x :: _) => x | v => v) with
      | .vDict kvs =>
        let amount0 := (lookupField kvs "amount").getD .vNull
        let amount := if truthy amount0 then amount0 else (lookupField kvs "value").getD .vNull
        let cur := (lookupField kvs "currency").getD (.vStr "EUR")
        if truthy amount then
          match pyFloat? amount with
          | none => ⟨none, prev.value_original, some cur⟩
          | some a =>
            match cur with
            | .vStr c => ⟨some (a * ((ratesLookup ⟨c.data.map upperChar⟩).getD 1.0)), some a, some cur⟩
            | _ => ⟨none, some a, some cur⟩
        else ⟨none, prev.value_original, some cur⟩
      | .vNum q => ⟨some q, some q, some (.vStr "EUR")⟩
      | .vBool b => ⟨some (if b then 1 else 0), some (if b then 1 else 0), some (.vStr "EUR")⟩
      | _ => ⟨none, prev.value_original, prev.currency⟩
    else ⟨none, prev.value_original, prev.currency⟩

/-- The value-category classification of parse_tender (source lines
561-572): none for a missing or zero reference amount, otherwise the first
threshold band that applies. -/
def value_category_of (value_eur : Option ℚ) : Option String :=
  match value_eur with
  | none => none
  | some v =>
    if v = 0 then none
    else if v < 50000 then some "MICRO"
    else if v < 500000 then some "SMALL"
    else if v < 5000000 then some "MEDIUM"
    else if v < 50000000 then some "LARGE"
    else some "MEGA"

/-- The restrictive procedure types of the complexity rule
(source line 635). -/
def restrictive_procedures : List String := ["restricted", "comp-dial", "negotiated"]

/-- Python membership of the procedure_type value in the restrictive list
(a non-string never equals a string). -/
def procedureRestrictive (v : Value) : Bool :=
  match v with
  | .vStr s => restrictive_procedures.contains s
  | _ => false

/-- The sentinel lot identifier meaning "no subdivision". -/
def sentinelLot : Value := .vStr "LOT-0000"

/-- Insertion keeping only new elements; building block for the model of a
Python set. -/
def insertNew (acc : List Value) (v : Value) : List Value :=
  if v ∈ acc then acc else acc ++ [v]

/-- Insertion-ordered distinct elements of a list: models Python set(l)
where only cardinality and membership of the set are consumed (iteration
order of a Python set is unspecified and unused here). -/
def distinctList (l : List Value) : List Value := l.foldl insertNew []

/-- The in-record multi-lot heuristic of parse_tender (source lines
604-611): with a truthy lot_identifiers argument, multi-lot iff more than
one distinct non-sentinel identifier, or exactly one with total_lots above
one; otherwise multi-lot iff the record's own lot id is non-sentinel and
total_lots is above one. -/
def parse_tender_multilot (lot_id : Value) (total_lots : Nat)
    (lot_identifiers : Option (List Value)) : Bool :=
  match lot_identifiers with
  | some (lid0 :: lids) =>
    let unique_lots := distinctList ((lid0 :: lids).filter
      (fun lid => truthy lid && !(lid == sentinelLot)))
    decide (1 < unique_lots.length) ||
      (decide (unique_lots.length = 1) && decide (1 < total_lots))
  | _ => !(lot_id == sentinelLot) && decide (1 < total_lots)

/-- The normalized output entity produced by parse_tender, restricted to
the sections and fields the analysed properties consume (identification,
dates, financial, classification/requirements, lot structure).
Presentation-only fields of the source dict (title, description, buyer
details, URLs, award criteria, metadata, ...) are not modelled. -/
structure Tender where
  notice_identifier : Value
  publication_date : Option String
  deadline_tender : Option String
  deadline_request : Option String
  deadline_eoi : Option String
  deadline_main : Option String
  days_until_deadline : Option Int
  urgency_level : String
  is_expired : Bool
  value_original : Option ℚ
  currency : Option Value
  value_eur : Option ℚ
  value_category : Option String
  procedure_type : Value
  security_clearance : Bool
  guarantee_required : Bool
  subcontracting_obligatory : Bool
  complexity_score : Nat
  complexity_level : String
  is_multi_lot : Bool
  lot_identifier : Value
  lot_number : Nat
  total_lots : Nat

/-- parse_tender (source lines 412-792), on the modelled fields.  The
days-until computation threads the injected DateOracle; every other field
follows the source expression for it. -/
def parse_tender (o : DateOracle) (notice : RawRecord) (lot_number : Nat)
    (total_lots : Nat) (lot_identifiers : Option (List Value)) : Tender :=
  let notice_id := rget notice "notice-identifier"
  let pub_date := parse_date o (rget notice "publication-date")
  let deadline_tender := parse_date o (rget notice "deadline-receipt-tender-date-lot")
  let deadline_request := parse_date o (rget notice "deadline-receipt-request-date-lot")
  let deadline_eoi := parse_date o (rget notice "deadline-receipt-expressions-date-lot")
  let main_deadline := pyOrStr deadline_tender (pyOrStr deadline_request deadline_eoi)
  let days_until := calculate_days_until o main_deadline
  let urgency := urgency_of days_until
  let fin := financial_fallback notice (financial_from_value_cur notice)
  let category := value_category_of fin.value_eur
  let procedure_type := get_value (rget notice "procedure-type") .vNull
  let lot_id0 := get_value (rget notice "identifier-lot") .vNull
  let lot_id := if truthy lot_id0 then lot_id0 else sentinelLot
  let is_multi_lot := parse_tender_multilot lot_id total_lots lot_identifiers
  let security_clearance := parse_boolean (get_value (rget notice "security-clearance-lot") .vNull)
  let guarantee_required := parse_boolean (get_value (rget notice "guarantee-required-lot") .vNull)
  let subcontracting_obligatory :=
    parse_boolean (get_value (rget notice "subcontracting-obligation-lot") .vNull)
  let complexity : Nat :=
    (if security_clearance then 20 else 0) + (if guarantee_required then 10 else 0) +
      (if procedureRestrictive procedure_type then 20 else 0) +
      (if subcontracting_obligatory then 15 else 0)
  let complexity_level :=
    if complexity ≥ 30 then "COMPLEX" else if complexity ≥ 15 then "MODERATE" else "SIMPLE"
  { notice_identifier := notice_id
    publication_date := pub_date
    deadline_tender := deadline_tender
    deadline_request := deadline_request
    deadline_eoi := deadline_eoi
    deadline_main := main_deadline
    days_until_deadline := days_until
    urgency_level := urgency
    is_expired := urgency == "EXPIRED"
    value_original := fin.value_original
    currency := fin.currency
    value_eur := fin.value_eur
    value_category := category
    procedure_type := procedure_type
    security_clearance := security_clearance
    guarantee_required := guarantee_required
    subcontracting_obligatory := subcontracting_obligatory
    complexity_score := complexity
    complexity_level := complexity_level
    is_multi_lot := is_multi_lot
    lot_identifier := lot_id
    lot_number := lot_number
    total_lots := total_lots }

/-- The identifier-lot array of the group's first record, coerced to a list
(source lines 850-854 of detect_and_process_multilot): a non-list truthy
value becomes a singleton, a falsy one the empty list. -/
def first_record_lot_ids (first_notice : RawRecord) : List Value :=
  match rgetD first_notice "identifier-lot" (.vList []) with
  | .vList xs => xs
  | v => if truthy v then [v] else []

/-- The cleaned lot identifiers of the group's first record (source line
857): falsy entries and the LOT-0000 sentinel removed. -/
def lot_identifiers_of (first_notice : RawRecord) : List Value :=
  (first_record_lot_ids first_notice).filter (fun lid => truthy lid && !(lid == sentinelLot))

/-- The unique_lots set of detect_and_process_multilot (source line 860). -/
def unique_lots_of (first_notice : RawRecord) : List Value :=
  distinctList (lot_identifiers_of first_notice)

/-- The three-way multi-lot decision of detect_and_process_multilot (source
lines 864-892): (is_multi_lot, display_total_lots).  No distinct
identifiers: single with 1; exactly one: free-text inference, multi-lot
with the inferred count when it is above one, else single with 1; two or
more: multi-lot with the distinct count. -/
def group_lot_decision (first_notice : RawRecord) : Bool × Nat :=
  if (unique_lots_of first_notice).length = 0 then (false, 1)
  else if (unique_lots_of first_notice).length = 1 then
    match extract_lot_count_from_text first_notice with
    | some c => if 1 < c then (true, c) else (false, 1)
    | none => (false, 1)
  else (true, (unique_lots_of first_notice).length)

/-- The per-group body of detect_and_process_multilot (source lines
847-930): only the group's FIRST record is consulted; the tender is parsed
from it and its lot-identity fields are then overridden with the group
decision.  The lot_titles/lot_descriptions presentation metadata of lines
907-928 is outside the modelled Tender fields. -/
def process_group (o : DateOracle) (first_notice : RawRecord) : Tender :=
  let tender := parse_tender o first_notice 1 (group_lot_decision first_notice).2
    (some (unique_lots_of first_notice))
  { tender with
    is_multi_lot := (group_lot_decision first_notice).1
    total_lots := (group_lot_decision first_notice).2 }

/-- One step of the grouping loop of detect_and_process_multilot (source
lines 818-836): a record with a truthy notice-identifier registers its key
(Python dict insertion order = order of first appearance); records without
one are dropped. -/
def groupStep (acc : List Value) (notice : RawRecord) : List Value :=
  if truthy (rget notice "notice-identifier") then insertNew acc (rget notice "notice-identifier")
  else acc

/-- The distinct grouping keys in order of first appearance (the keys of
the notice_groups dict). -/
def groupKeys (notices : List RawRecord) : List Value :=
  notices.foldl groupStep []

/-- The records collected for one grouping key, in input order (the
notice_groups entry for that key; the per-record lot_ids stored alongside
on line 835 are never read afterwards and are not modelled). -/
def groupMembers (notices : List RawRecord) (k : Value) : List RawRecord :=
  notices.filter (fun n =>
    truthy (rget n "notice-identifier") && rget n "notice-identifier" == k)

/-- detect_and_process_multilot (source lines 799-942): one Tender per
grouping key, produced from the group's first record. -/
def detect_and_process_multilot (o : DateOracle) (notices : List RawRecord) : List Tender :=
  (groupKeys notices).map (fun notice_id =>
    process_group o ((groupMembers notices notice_id).headD []))

/-- The expiry filter of main (source lines 977-980): keep a tender whose
days_until_deadline is None or non-negative. -/
def filter_active (tenders : List Tender) : List Tender :=
  tenders.filter (fun t =>
    match t.days_until_deadline with
    | none => true
    | some d => decide (0 ≤ d))

/-- Scalar predicate: true exactly when the value is neither a mapping nor
a sequence. -/
def isScalar : Value → Bool
  | .vList _ => false
  | .vDict _ => false
  | _ => true

/-- The raw-value shape grammar of the specification (spec section 3): null,
scalar, sequence of scalars, or mapping from language code to
scalar-or-sequence-of-scalars; no deeper nesting. -/
def wellShaped : Value → Bool
  | .vList xs => xs.all isScalar
  | .vDict kvs => kvs.all (fun p =>
      match p.2 with
      | .vList xs => xs.all isScalar
      | .vDict _ => false
      | _ => true)
  | _ => true

/-- Modelled from the spec wording of the lot-count claim: the distinct
non-sentinel (and non-empty) lot identifiers collected as a set across the
WHOLE group, not only its first record. -/
def specGroupLotIds (group : List RawRecord) : List Value :=
  distinctList (((group.map first_record_lot_ids).flatten).filter
    (fun lid => truthy lid && !(lid == sentinelLot)))

/-- Modelled from the spec wording of the multi-lot invariant claim:
free-text inference applied over the descriptive text of the whole group
(any record of the group yielding an explicit count above one). -/
def specGroupInfersMulti (group : List RawRecord) : Bool :=
  group.any (fun r =>
    match extract_lot_count_from_text r with
    | some c => decide (1 < c)
    | none => false)

/-- A date oracle for runs where no date ever parses (every claim proved
with a universally quantified oracle can be instantiated with it). -/
def nullOracle : DateOracle := ⟨fun _ => none, fun _ => none⟩

/-- A date oracle representing a fixed wall clock: every syntactically
accepted date parses to itself and lies d days from now. -/
def constOracle (d : Int) : DateOracle := ⟨fun s => some s, fun _ => some d⟩

/-- Shape bound for the value found inside a well-shaped dict: a scalar or
a list of scalars. -/
def dictEntryShaped (v : Value) : Bool :=
  match v with
  | .vList xs => xs.all isScalar
  | .vDict _ => false
  | _ => true

/-- Concrete fixture: one record of a group sharing notice id P1, carrying
the full three-element identifier-lot array of the spec's multi-lot
example. -/
def p1Record : RawRecord :=
  [("notice-identifier", .vStr "P1"),
   ("identifier-lot", .vList [.vStr "LOT-0001", .vStr "LOT-0002", .vStr "LOT-0003"])]

/-- Concrete fixture: a group of three records sharing procurement id P1
with lot identifiers LOT-0001, LOT-0002, LOT-0003. -/
def p1Group : List RawRecord := [p1Record, p1Record, p1Record]

/-- Concrete fixture: first record of a group carrying only LOT-0001. -/
def splitRecA : RawRecord :=
  [("notice-identifier", .vStr "P9"), ("identifier-lot", .vList [.vStr "LOT-0001"])]

/-- Concrete fixture: second record of the same group carrying only
LOT-0002. -/
def splitRecB : RawRecord :=
  [("notice-identifier", .vStr "P9"), ("identifier-lot", .vList [.vStr "LOT-0002"])]

/-- Concrete fixture: first record of a group with one lot identifier and
no text cues. -/
def quietRec : RawRecord :=
  [("notice-identifier", .vStr "P8"), ("identifier-lot", .vList [.vStr "LOT-0001"])]

/-- Concrete fixture: a later record of the same group whose description
announces five lots. -/
def textRec : RawRecord :=
  [("notice-identifier", .vStr "P8"), ("identifier-lot", .vList [.vStr "LOT-0001"]),
   ("description-lot", .vStr "divided into 5 lots")]

/-- Concrete fixture: amount 12000 in DKK (the spec's currency example). -/
def dkkNotice : RawRecord :=
  [("estimated-value-cur-lot", .vDict [("amount", .vNum 12000), ("currency", .vStr "DKK")])]

/-- Concrete fixture: a zero amount paired with an unknown currency code. -/
def zeroAmountNotice : RawRecord :=
  [("estimated-value-cur-lot", .vDict [("amount", .vNum 0), ("currency", .vStr "XXX")])]

/-- Concrete fixture: a truthy amount paired with an unknown currency
code. -/
def unknownCurNotice : RawRecord :=
  [("estimated-value-cur-lot", .vDict [("amount", .vNum 250), ("currency", .vStr "xyz")])]

/-- Concrete fixture: security clearance required, restricted procedure, no
guarantee (the spec's complexity example). -/
def complexNotice : RawRecord :=
  [("security-clearance-lot", .vBool true), ("procedure-type", .vStr "restricted")]

/-- Concrete fixture: a record with only a tender-submission deadline. -/
def deadlineNotice : RawRecord :=
  [("deadline-receipt-tender-date-lot", .vStr "2026-01-01T00:00:00Z")]

theorem lookupField_mem {kvs : List (String × Value)} {k : String} {v : Value}
    (h : lookupField kvs k = some v) : v ∈ kvs.map Prod.snd := by
  unfold lookupField at h
  cases hf : kvs.find? (fun p => p.1 == k) with
  | none => rw [hf] at h; simp at h
  | some p =>
    rw [hf] at h
    have hv : p.2 = v := by simpa using h
    subst hv
    exact List.mem_map_of_mem _ (List.mem_of_find?_eq_some hf)

theorem lookupField_nonempty {kvs : List (String × Value)} {k : String} {v : Value}
    (h : lookupField kvs k = some v) : truthy (.vDict kvs) = true := by
  cases kvs with
  | nil => simp [lookupField] at h
  | cons p ps => simp [truthy]

theorem wellShaped_dict_entry {kvs : List (String × Value)}
    (hw : wellShaped (.vDict kvs) = true) {v : Value} (hv : v ∈ kvs.map Prod.snd) :
    dictEntryShaped v = true := by
  simp only [wellShaped, List.all_eq_true] at hw
  rcases List.mem_map.mp hv with ⟨p, hp, rfl⟩
  exact hw p hp

theorem firstOrTruthy_scalar {v d : Value} (hv : dictEntryShaped v = true) :
    isScalar (firstOrTruthy v d) = true ∨ firstOrTruthy v d = d := by
  cases v with
  | vList xs =>
    cases xs with
    | nil => right; simp [firstOrTruthy, truthy]
    | cons x rest =>
      left
      simp only [dictEntryShaped, List.all_eq_true] at hv
      simpa [firstOrTruthy] using hv x (by simp)
  | vDict kvs => simp [dictEntryShaped] at hv
  | vNull => right; simp [firstOrTruthy, truthy]
  | vBool b =>
    by_cases hb : truthy (.vBool b) = true
    · left; simp [firstOrTruthy, hb, isScalar]
    · right; simp only [Bool.not_eq_true] at hb; simp [firstOrTruthy, hb]
  | vNum q =>
    by_cases hb : truthy (.vNum q) = true
    · left; simp [firstOrTruthy, hb, isScalar]
    · right; simp only [Bool.not_eq_true] at hb; simp [firstOrTruthy, hb]
  | vStr s =>
    by_cases hb : truthy (.vStr s) = true
    · left; simp [firstOrTruthy, hb, isScalar]
    · right; simp only [Bool.not_eq_true] at hb; simp [firstOrTruthy, hb]

/-- C3 (counterexample): on a multilingual mapping whose language entry is a
nested sequence — a shape admitted by the claim's "possibly nested" input
grammar — get_value returns a sequence, which is neither a scalar nor the
given default. -/
theorem get_value_nested_returns_sequence :
    get_value (.vDict [("eng", .vList [.vList [.vNum 1]])]) .vNull = .vList [.vNum 1] ∧
    isScalar (.vList [.vNum 1]) = false ∧
    Value.vList [.vNum 1] ≠ .vNull := by
  refine ⟨by decide, by decide, by decide⟩

/-- C3 (amended): on well-shaped raw values — null, scalar, sequence of
scalars, or mapping from language code to scalar-or-sequence-of-scalars,
with no deeper nesting — get_value never returns a mapping or a sequence:
its result is a scalar or the given default.  (The Lean model is total, so
no exception can escape on this domain, matching the source where every
operation is isinstance-guarded.) -/
theorem get_value_scalar_of_wellShaped (data default : Value)
    (h : wellShaped data = true) :
    isScalar (get_value data default) = true ∨ get_value data default = default := by
  cases data with
  | vNull => right; rfl
  | vBool b =>
    by_cases hb : truthy (.vBool b) = true
    · left; simp [get_value, hb, isScalar]
    · right; simp only [Bool.not_eq_true] at hb; simp [get_value, hb]
  | vNum q =>
    by_cases hb : truthy (.vNum q) = true
    · left; simp [get_value, hb, isScalar]
    · right; simp only [Bool.not_eq_true] at hb; simp [get_value, hb]
  | vStr s =>
    by_cases hb : truthy (.vStr s) = true
    · left; simp [get_value, hb, isScalar]
    · right; simp only [Bool.not_eq_true] at hb; simp [get_value, hb]
  | vList xs =>
    cases xs with
    | nil => right; simp [get_value, truthy]
    | cons x rest =>
      left
      simp only [wellShaped, List.all_eq_true] at h
      simpa [get_value] using h x (by simp)
  | vDict kvs =>
    cases hf : priorityLangs.findSome? (fun lang => lookupField kvs lang) with
    | some value =>
      have hmem : value ∈ kvs.map Prod.snd := by
        rcases List.findSome?_eq_some_iff.mp hf with ⟨l₁, a, l₂, _, he, _⟩
        exact lookupField_mem he
      have := firstOrTruthy_scalar (d := default) (wellShaped_dict_entry h hmem)
      simpa [get_value, hf] using this
    | none =>
      cases kvs with
      | nil => right; simp [get_value, hf]
      | cons p ps =>
        obtain ⟨k0, v0⟩ := p
        have := firstOrTruthy_scalar (d := default)
          (wellShaped_dict_entry h (v := v0) (by simp))
        simpa [get_value, hf] using this

/-- C3 (witness): the amended theorem applied at a concrete well-shaped
multilingual mapping and a concrete default. -/
theorem get_value_scalar_of_wellShaped_witness :
    isScalar (get_value (.vDict [("dan", .vList [.vStr "a", .vStr "b"])]) (.vStr "d")) = true ∨
    get_value (.vDict [("dan", .vList [.vStr "a", .vStr "b"])]) (.vStr "d") = .vStr "d" :=
  get_value_scalar_of_wellShaped _ _ (by decide)

/-- C4: empty sequences, empty mappings, and the falsy scalars 0, "" and
false all make get_value return the default, for every default. -/
theorem get_value_falsy_default (default : Value) :
    get_value (.vList []) default = default ∧
    get_value (.vDict []) default = default ∧
    get_value (.vNum 0) default = default ∧
    get_value (.vStr "") default = default ∧
    get_value (.vBool false) default = default := by
  refine ⟨rfl, rfl, ?_, ?_, rfl⟩
  · simp [get_value, truthy]
  · simp [get_value, truthy]

/-- C4 (witness): the theorem applied at a concrete default. -/
theorem get_value_falsy_default_witness :
    get_value (.vList []) (.vStr "w") = .vStr "w" ∧
    get_value (.vDict []) (.vStr "w") = .vStr "w" ∧
    get_value (.vNum 0) (.vStr "w") = .vStr "w" ∧
    get_value (.vStr "") (.vStr "w") = .vStr "w" ∧
    get_value (.vBool false) (.vStr "w") = .vStr "w" :=
  get_value_falsy_default (.vStr "w")

theorem process_group_is_multi_lot (o : DateOracle) (f : RawRecord) :
    (process_group o f).is_multi_lot = (group_lot_decision f).1 := rfl

theorem process_group_total_lots (o : DateOracle) (f : RawRecord) :
    (process_group o f).total_lots = (group_lot_decision f).2 := rfl

theorem process_group_notice_id (o : DateOracle) (f : RawRecord) :
    (process_group o f).notice_identifier = rget f "notice-identifier" := rfl

theorem group_lot_decision_ge2 {f : RawRecord} (h : 2 ≤ (unique_lots_of f).length) :
    group_lot_decision f = (true, (unique_lots_of f).length) := by
  unfold group_lot_decision
  rw [if_neg (by omega), if_neg (by omega)]


theorem group_lot_decision_fst {f : RawRecord} :
    (group_lot_decision f).1 = true ↔
      1 < (unique_lots_of f).length ∨
      ((unique_lots_of f).length = 1 ∧
        ∃ c, extract_lot_count_from_text f = some c ∧ 1 < c) := by
  unfold group_lot_decision
  cases hx : extract_lot_count_from_text f with
  | none =>
    split
    · next h0 => simp [h0]
    · next h0 =>
      split
      · next h1 => simp [h1]
      · next h1 =>
        simp only [true_iff]
        exact Or.inl (by omega)
  | some c =>
    split
    · next h0 => simp [h0]
    · next h0 =>
      split
      · next h1 =>
        by_cases hc : 1 < c
        · simp [h1, hc]
        · simp [h1, hc]
      · next h1 =>
        simp only [true_iff]
        exact Or.inl (by omega)

theorem group_lot_decision_cases (f : RawRecord) :
    group_lot_decision f = (false, 1) ∨
    ((group_lot_decision f).1 = true ∧ 2 ≤ (group_lot_decision f).2) := by
  unfold group_lot_decision
  split
  · exact Or.inl rfl
  · next h0 =>
    split
    · next h1 =>
      cases hx : extract_lot_count_from_text f with
      | none => exact Or.inl rfl
      | some c =>
        by_cases hc : 1 < c
        · right; simp [hc]; omega
        · left; simp [hc]
    · next h1 =>
      right
      refine ⟨rfl, ?_⟩
      simp only
      omega

theorem group_lot_decision_snd_pos (f : RawRecord) : 1 ≤ (group_lot_decision f).2 := by
  rcases group_lot_decision_cases f with h | ⟨-, h⟩
  · rw [h]
  · omega

theorem group_lot_decision_multi {f : RawRecord}
    (h : (group_lot_decision f).1 = true) : 2 ≤ (group_lot_decision f).2 := by
  rcases group_lot_decision_cases f with he | ⟨-, h2⟩
  · rw [he] at h; cases h
  · exact h2

theorem mem_insertNew {acc : List Value} {v x : Value} :
    x ∈ insertNew acc v ↔ x ∈ acc ∨ x = v := by
  unfold insertNew
  split
  · next hv =>
    constructor
    · exact Or.inl
    · rintro (h | rfl)
      · exact h
      · exact hv
  · simp [List.mem_append]

theorem nodup_insertNew {acc : List Value} {v : Value} (h : acc.Nodup) :
    (insertNew acc v).Nodup := by
  unfold insertNew
  split
  · exact h
  · next hv => simp [List.nodup_append, h, hv]

theorem mem_groupKeys_aux : ∀ (ns : List RawRecord) (acc : List Value) (x : Value),
    x ∈ ns.foldl groupStep acc ↔
      x ∈ acc ∨ ∃ r ∈ ns, truthy (rget r "notice-identifier") = true ∧
        rget r "notice-identifier" = x := by
  intro ns
  induction ns with
  | nil => simp
  | cons r rs ih =>
    intro acc x
    rw [List.foldl_cons, ih]
    unfold groupStep
    split
    · next htr =>
      rw [mem_insertNew]
      constructor
      · rintro ((h | rfl) | ⟨r', hr', ht', he'⟩)
        · exact Or.inl h
        · exact Or.inr ⟨r, by simp, htr, rfl⟩
        · exact Or.inr ⟨r', by simp [hr'], ht', he'⟩
      · rintro (h | ⟨r', hr', ht', he'⟩)
        · exact Or.inl (Or.inl h)
        · rcases List.mem_cons.mp hr' with rfl | hr''
          · exact Or.inl (Or.inr he'.symm)
          · exact Or.inr ⟨r', hr'', ht', he'⟩
    · next htr =>
      constructor
      · rintro (h | ⟨r', hr', ht', he'⟩)
        · exact Or.inl h
        · exact Or.inr ⟨r', by simp [hr'], ht', he'⟩
      · rintro (h | ⟨r', hr', ht', he'⟩)
        · exact Or.inl h
        · rcases List.mem_cons.mp hr' with rfl | hr''
          · exact absurd ht' htr
          · exact Or.inr ⟨r', hr'', ht', he'⟩

theorem nodup_groupKeys_aux : ∀ (ns : List RawRecord) (acc : List Value),
    acc.Nodup → (ns.foldl groupStep acc).Nodup := by
  intro ns
  induction ns with
  | nil => intro acc h; simpa using h
  | cons r rs ih =>
    intro acc h
    rw [List.foldl_cons]
    apply ih
    unfold groupStep
    split
    · exact nodup_insertNew h
    · exact h

theorem mem_groupKeys {ns : List RawRecord} {x : Value} :
    x ∈ groupKeys ns ↔
      ∃ r ∈ ns, truthy (rget r "notice-identifier") = true ∧
        rget r "notice-identifier" = x := by
  unfold groupKeys
  rw [mem_groupKeys_aux]
  simp

theorem nodup_groupKeys (ns : List RawRecord) : (groupKeys ns).Nodup :=
  nodup_groupKeys_aux ns [] (by simp)

theorem groupMembers_head_id {ns : List RawRecord} {k : Value} (hk : k ∈ groupKeys ns) :
    rget ((groupMembers ns k).headD []) "notice-identifier" = k := by
  rcases mem_groupKeys.mp hk with ⟨r, hr, ht, he⟩
  have hmem : r ∈ groupMembers ns k := by
    unfold groupMembers
    rw [List.mem_filter]
    refine ⟨hr, ?_⟩
    rw [he] at ht
    simp [he, ht]
  cases hh : groupMembers ns k with
  | nil => rw [hh] at hmem; cases hmem
  | cons m ms =>
    have hm : m ∈ groupMembers ns k := by rw [hh]; simp
    have hp := (List.mem_filter.mp hm).2
    rw [Bool.and_eq_true] at hp
    have := hp.2
    rw [beq_iff_eq] at this
    simp [hh, this]

theorem parse_tender_value_eur (o : DateOracle) (notice : RawRecord) (ln tl : Nat)
    (lids : Option (List Value)) :
    (parse_tender o notice ln tl lids).value_eur =
      (financial_fallback notice (financial_from_value_cur notice)).value_eur := rfl

theorem parse_tender_value_original (o : DateOracle) (notice : RawRecord) (ln tl : Nat)
    (lids : Option (List Value)) :
    (parse_tender o notice ln tl lids).value_original =
      (financial_fallback notice (financial_from_value_cur notice)).value_original := rfl

theorem parse_tender_value_category (o : DateOracle) (notice : RawRecord) (ln tl : Nat)
    (lids : Option (List Value)) :
    (parse_tender o notice ln tl lids).value_category =
      value_category_of (parse_tender o notice ln tl lids).value_eur := rfl

theorem financial_from_value_cur_dict {notice : RawRecord} {kvs : List (String × Value)}
    {amt : Value} {a : ℚ} {c : String}
    (hraw : rget notice "estimated-value-cur-lot" = .vDict kvs)
    (hamt : lookupField kvs "amount" = some amt)
    (htr : truthy amt = true)
    (ha : pyFloat? amt = some a)
    (hc : (lookupField kvs "currency").getD (.vStr "EUR") = .vStr c) :
    financial_from_value_cur notice =
      ⟨some (a * ((ratesLookup ⟨c.data.map upperChar⟩).getD 1.0)), some a,
        some (.vStr c)⟩ := by
  have htd : truthy (.vDict kvs) = true := lookupField_nonempty hamt
  simp [financial_from_value_cur, hraw, htd, hamt, htr, ha, hc]

theorem financial_from_value_cur_unparsable {notice : RawRecord}
    {kvs : List (String × Value)} {amt : Value}
    (hraw : rget notice "estimated-value-cur-lot" = .vDict kvs)
    (hamt : lookupField kvs "amount" = some amt)
    (htr : truthy amt = true)
    (ha : pyFloat? amt = none) :
    (financial_from_value_cur notice).value_eur = none := by
  have htd : truthy (.vDict kvs) = true := lookupField_nonempty hamt
  simp [financial_from_value_cur, hraw, htd, hamt, htr, ha]

theorem financial_from_value_cur_absent {notice : RawRecord}
    (h : truthy (rget notice "estimated-value-cur-lot") = false) :
    financial_from_value_cur notice = ⟨none, none, none⟩ := by
  simp [financial_from_value_cur, h]

theorem financial_fallback_isSome {notice : RawRecord} {prev : Financial}
    (h : prev.value_eur.isSome = true) : financial_fallback notice prev = prev := by
  simp [financial_fallback, h]

theorem financial_fallback_absent {notice : RawRecord} {prev : Financial}
    (h : truthy (rget notice "estimated-value-lot") = false) :
    (financial_fallback notice prev).value_eur = prev.value_eur := by
  by_cases hp : prev.value_eur.isSome = true
  · simp [financial_fallback, hp]
  · have hnone : prev.value_eur = none := by
      cases hv : prev.value_eur
      · rfl
      · rw [hv] at hp; simp at hp
    simp [financial_fallback, hp, h, hnone]

/-- C1 (counterexample): a group of two records sharing one notice id whose
distinct non-sentinel lot identifiers, collected across the WHOLE group,
number 2, yet the produced Tender has is_multi_lot = false and
total_lots = 1 — detect_and_process_multilot reads the identifier-lot array
of the group's first record only (source line 850). -/
theorem multilot_group_union_cex :
    (specGroupLotIds [splitRecA, splitRecB]).length = 2 ∧
    (detect_and_process_multilot nullOracle [splitRecA, splitRecB]).map
      Tender.is_multi_lot = [false] ∧
    (detect_and_process_multilot nullOracle [splitRecA, splitRecB]).map
      Tender.total_lots = [1] :=
  ⟨by decide, by decide, by decide⟩

/-- C1 (amended): for every group whose FIRST record's identifier-lot array
holds at least 2 distinct non-sentinel (non-falsy) identifiers, the Tender
produced for that group has is_multi_lot = true and total_lots equal to
that distinct count. -/
theorem multilot_count_first_record_array (o : DateOracle) (notices : List RawRecord)
    (k : Value) (hk : k ∈ groupKeys notices)
    (h2 : 2 ≤ (unique_lots_of ((groupMembers notices k).headD [])).length) :
    ∃ t ∈ detect_and_process_multilot o notices,
      t.notice_identifier = k ∧ t.is_multi_lot = true ∧
      t.total_lots = (unique_lots_of ((groupMembers notices k).headD [])).length := by
  refine ⟨process_group o ((groupMembers notices k).headD []), ?_, ?_, ?_, ?_⟩
  · exact List.mem_map_of_mem _ hk
  · rw [process_group_notice_id]
    exact groupMembers_head_id hk
  · rw [process_group_is_multi_lot, group_lot_decision_ge2 h2]
  · rw [process_group_total_lots, group_lot_decision_ge2 h2]

/-- C1 (witness): the amended theorem applied to the spec's example group
of three records sharing procurement id P1 with lot identifiers LOT-0001,
LOT-0002, LOT-0003. -/
theorem multilot_count_first_record_array_witness :
    ∃ t ∈ detect_and_process_multilot nullOracle p1Group,
      t.notice_identifier = .vStr "P1" ∧ t.is_multi_lot = true ∧
      t.total_lots = (unique_lots_of ((groupMembers p1Group (.vStr "P1")).headD [])).length :=
  multilot_count_first_record_array nullOracle p1Group (.vStr "P1") (by decide) (by decide)

/-- C2 (counterexample): a group whose distinct identifier set (over the
whole group) has exactly one member and whose free-text inference over the
GROUP's descriptive text finds five lots, yet the produced Tender has
is_multi_lot = false — the code runs the inference on the group's first
record only, and here the five-lot description sits on the second
record. -/
theorem is_multi_lot_group_iff_cex :
    (specGroupLotIds [quietRec, textRec]).length = 1 ∧
    specGroupInfersMulti [quietRec, textRec] = true ∧
    (detect_and_process_multilot nullOracle [quietRec, textRec]).map
      Tender.is_multi_lot = [false] :=
  ⟨by decide, by decide, by decide⟩

/-- C2 (amended): the Tender produced for a group has is_multi_lot = true
iff the distinct non-sentinel identifier set of the group's FIRST record
has more than one member, or it has exactly one member and free-text
inference over the FIRST record's descriptive text finds an explicit lot
count above one. -/
theorem is_multi_lot_iff_first_record (o : DateOracle) (first_notice : RawRecord) :
    (process_group o first_notice).is_multi_lot = true ↔
      1 < (unique_lots_of first_notice).length ∨
      ((unique_lots_of first_notice).length = 1 ∧
        ∃ c, extract_lot_count_from_text first_notice = some c ∧ 1 < c) := by
  rw [process_group_is_multi_lot]
  exact group_lot_decision_fst

/-- C2 (witness): the iff applied at a record with one identifier and a
five-lot description. -/
theorem is_multi_lot_iff_first_record_witness :
    (process_group nullOracle textRec).is_multi_lot = true :=
  (is_multi_lot_iff_first_record nullOracle textRec).mpr
    (Or.inr ⟨by decide, 5, by decide, by decide⟩)

/-- C10: every produced Tender has total_lots at least 1, and at least 2
whenever is_multi_lot is true. -/
theorem total_lots_bounds (o : DateOracle) (first_notice : RawRecord) :
    1 ≤ (process_group o first_notice).total_lots ∧
    ((process_group o first_notice).is_multi_lot = true →
      2 ≤ (process_group o first_notice).total_lots) := by
  rw [process_group_total_lots, process_group_is_multi_lot]
  exact ⟨group_lot_decision_snd_pos first_notice, group_lot_decision_multi⟩

/-- C10 (witness): the bounds at a concrete multi-lot record. -/
theorem total_lots_bounds_witness :
    1 ≤ (process_group nullOracle p1Record).total_lots ∧
    ((process_group nullOracle p1Record).is_multi_lot = true →
      2 ≤ (process_group nullOracle p1Record).total_lots) :=
  total_lots_bounds nullOracle p1Record

/-- C9: aggregation produces exactly one Tender per distinct grouping key:
the notice identifiers of the output are exactly the distinct keys in order
of first appearance, that key list has no duplicates (so no two output
Tenders share a ProcurementKey), and a value is a key iff some input record
exposes it as its truthy notice-identifier. -/
theorem one_tender_per_key (o : DateOracle) (notices : List RawRecord) :
    (detect_and_process_multilot o notices).map Tender.notice_identifier =
      groupKeys notices ∧
    (groupKeys notices).Nodup ∧
    (∀ k, k ∈ groupKeys notices ↔
      ∃ r ∈ notices, truthy (rget r "notice-identifier") = true ∧
        rget r "notice-identifier" = k) := by
  refine ⟨?_, nodup_groupKeys notices, fun k => mem_groupKeys⟩
  unfold detect_and_process_multilot
  rw [List.map_map]
  conv_rhs => rw [← List.map_id (groupKeys notices)]
  apply List.map_congr_left
  intro k hk
  simp only [Function.comp_apply, process_group_notice_id, id_eq]
  exact groupMembers_head_id hk

/-- C9 (witness): the aggregation invariant at a concrete batch with two
groups and a repeated key. -/
theorem one_tender_per_key_witness :
    (detect_and_process_multilot nullOracle [splitRecA, quietRec, splitRecB]).map
      Tender.notice_identifier = groupKeys [splitRecA, quietRec, splitRecB] ∧
    (groupKeys [splitRecA, quietRec, splitRecB]).Nodup :=
  ⟨(one_tender_per_key nullOracle [splitRecA, quietRec, splitRecB]).1,
   (one_tender_per_key nullOracle [splitRecA, quietRec, splitRecB]).2.1⟩

/-- C5 (counterexample): a present, parsable but zero amount with an
unknown currency code: the claim's unknown-code clause promises a
reference-currency value equal to the original amount (0.0), but the code's
truthiness guard skips conversion and leaves the reference value null. -/
theorem currency_zero_amount_cex :
    ratesLookup ⟨"XXX".data.map upperChar⟩ = none ∧
    (parse_tender nullOracle zeroAmountNotice 1 1 none).value_eur = none ∧
    (parse_tender nullOracle zeroAmountNotice 1 1 none).value_eur ≠ some 0 := by
  refine ⟨by with_unfolding_all decide, by with_unfolding_all decide,
    by with_unfolding_all decide⟩

/-- C5 (amended): for a truthy (in particular non-zero) parsable amount in
the currency-tagged field, an unknown code (after upper-casing, compared
against the table) yields multiplier 1.0 so the reference value equals the
amount; a known code yields amount times the table multiplier; a missing
first field together with a missing fallback field, or an unparsable amount
with a missing fallback field, yields a null reference value; a falsy
amount (such as the number 0) degrades to null like a missing one. -/
theorem currency_conversion_rules :
    (∀ (o : DateOracle) (notice : RawRecord) (ln tl : Nat) (lids : Option (List Value))
        (kvs : List (String × Value)) (amt : Value) (a : ℚ) (c : String),
      rget notice "estimated-value-cur-lot" = .vDict kvs →
      lookupField kvs "amount" = some amt →
      truthy amt = true →
      pyFloat? amt = some a →
      (lookupField kvs "currency").getD (.vStr "EUR") = .vStr c →
      ratesLookup ⟨c.data.map upperChar⟩ = none →
      (parse_tender o notice ln tl lids).value_eur = some a ∧
      (parse_tender o notice ln tl lids).value_original = some a) ∧
    (∀ (o : DateOracle) (notice : RawRecord) (ln tl : Nat) (lids : Option (List Value))
        (kvs : List (String × Value)) (amt : Value) (a : ℚ) (c : String) (r : ℚ),
      rget notice "estimated-value-cur-lot" = .vDict kvs →
      lookupField kvs "amount" = some amt →
      truthy amt = true →
      pyFloat? amt = some a →
      (lookupField kvs "currency").getD (.vStr "EUR") = .vStr c →
      ratesLookup ⟨c.data.map upperChar⟩ = some r →
      (parse_tender o notice ln tl lids).value_eur = some (a * r)) ∧
    (∀ (o : DateOracle) (notice : RawRecord) (ln tl : Nat) (lids : Option (List Value)),
      truthy (rget notice "estimated-value-cur-lot") = false →
      truthy (rget notice "estimated-value-lot") = false →
      (parse_tender o notice ln tl lids).value_eur = none) ∧
    (∀ (o : DateOracle) (notice : RawRecord) (ln tl : Nat) (lids : Option (List Value))
        (kvs : List (String × Value)) (amt : Value),
      rget notice "estimated-value-cur-lot" = .vDict kvs →
      lookupField kvs "amount" = some amt →
      truthy amt = true →
      pyFloat? amt = none →
      truthy (rget notice "estimated-value-lot") = false →
      (parse_tender o notice ln tl lids).value_eur = none) := by
  refine ⟨?_, ?_, ?_, ?_⟩
  · intro o notice ln tl lids kvs amt a c hraw hamt htr ha hc hrl
    have hfin := financial_from_value_cur_dict hraw hamt htr ha hc
    rw [hrl] at hfin
    have hsome : (financial_from_value_cur notice).value_eur.isSome = true := by
      rw [hfin]; rfl
    rw [parse_tender_value_eur, parse_tender_value_original,
      financial_fallback_isSome hsome, hfin]
    norm_num
  · intro o notice ln tl lids kvs amt a c r hraw hamt htr ha hc hrl
    have hfin := financial_from_value_cur_dict hraw hamt htr ha hc
    rw [hrl] at hfin
    have hsome : (financial_from_value_cur notice).value_eur.isSome = true := by
      rw [hfin]; rfl
    rw [parse_tender_value_eur, financial_fallback_isSome hsome, hfin]
    simp
  · intro o notice ln tl lids h1 h2
    rw [parse_tender_value_eur, financial_fallback_absent h2,
      financial_from_value_cur_absent h1]
  · intro o notice ln tl lids kvs amt hraw hamt htr ha h2
    rw [parse_tender_value_eur, financial_fallback_absent h2]
    exact financial_from_value_cur_unparsable hraw hamt htr ha

/-- C5 (witness): amount 250 with the unknown code "xyz" converts with
multiplier 1.0. -/
theorem currency_conversion_rules_witness :
    (parse_tender nullOracle unknownCurNotice 1 1 none).value_eur = some 250 ∧
    (parse_tender nullOracle unknownCurNotice 1 1 none).value_original = some 250 :=
  currency_conversion_rules.1 nullOracle unknownCurNotice 1 1 none
    [("amount", .vNum 250), ("currency", .vStr "xyz")] (.vNum 250) 250 "xyz"
    (by decide) (by decide) (by with_unfolding_all decide) rfl (by decide)
    (by with_unfolding_all decide)

/-- C6: the value bracket is none when the reference amount is null or
zero, and otherwise follows the threshold chain MICRO (<50,000), SMALL
(<500,000), MEDIUM (<5,000,000), LARGE (<50,000,000), MEGA (the rest); in
particular amount 12000 in DKK at rate 0.134 gives reference amount 1608.0
and bracket MICRO. -/
theorem value_bracket_rules :
    (∀ (o : DateOracle) (notice : RawRecord) (ln tl : Nat) (lids : Option (List Value)),
      ((parse_tender o notice ln tl lids).value_eur = none →
        (parse_tender o notice ln tl lids).value_category = none) ∧
      ((parse_tender o notice ln tl lids).value_eur = some 0 →
        (parse_tender o notice ln tl lids).value_category = none) ∧
      (∀ v : ℚ, (parse_tender o notice ln tl lids).value_eur = some v → v ≠ 0 →
        (parse_tender o notice ln tl lids).value_category =
          some (if v < 50000 then "MICRO"
                else if v < 500000 then "SMALL"
                else if v < 5000000 then "MEDIUM"
                else if v < 50000000 then "LARGE"
                else "MEGA"))) ∧
    ((parse_tender nullOracle dkkNotice 1 1 none).value_eur = some 1608 ∧
     (parse_tender nullOracle dkkNotice 1 1 none).value_category = some "MICRO") := by
  constructor
  · intro o notice ln tl lids
    refine ⟨?_, ?_, ?_⟩
    · intro h
      rw [parse_tender_value_category, h]
      rfl
    · intro h
      rw [parse_tender_value_category, h]
      simp [value_category_of]
    · intro v h hv
      rw [parse_tender_value_category, h]
      simp only [value_category_of, if_neg hv]
      split <;> try rfl
      split <;> try rfl
      split <;> try rfl
      split <;> rfl
  · exact ⟨by with_unfolding_all decide, by with_unfolding_all decide⟩

/-- C6 (witness): the spec's DKK example, via the theorem. -/
theorem value_bracket_rules_witness :
    (parse_tender nullOracle dkkNotice 1 1 none).value_eur = some 1608 ∧
    (parse_tender nullOracle dkkNotice 1 1 none).value_category = some "MICRO" :=
  value_bracket_rules.2

/-- C7: the complexity score is the sum of +20 for security clearance, +10
for a required guarantee, +20 for a restrictive procedure type and +15 for
obligatory subcontracting, and the level is COMPLEX at score 30 or more,
MODERATE at 15 or more, SIMPLE otherwise; in particular security clearance
with a restricted procedure and no guarantee scores 40, level COMPLEX. -/
theorem complexity_rules :
    (∀ (o : DateOracle) (notice : RawRecord) (ln tl : Nat) (lids : Option (List Value)),
      (parse_tender o notice ln tl lids).complexity_score =
        (if (parse_tender o notice ln tl lids).security_clearance then 20 else 0) +
        (if (parse_tender o notice ln tl lids).guarantee_required then 10 else 0) +
        (if procedureRestrictive (parse_tender o notice ln tl lids).procedure_type
          then 20 else 0) +
        (if (parse_tender o notice ln tl lids).subcontracting_obligatory then 15 else 0) ∧
      (parse_tender o notice ln tl lids).complexity_level =
        (if 30 ≤ (parse_tender o notice ln tl lids).complexity_score then "COMPLEX"
         else if 15 ≤ (parse_tender o notice ln tl lids).complexity_score then "MODERATE"
         else "SIMPLE")) ∧
    ((parse_tender nullOracle complexNotice 1 1 none).security_clearance = true ∧
     (parse_tender nullOracle complexNotice 1 1 none).guarantee_required = false ∧
     (parse_tender nullOracle complexNotice 1 1 none).subcontracting_obligatory = false ∧
     (parse_tender nullOracle complexNotice 1 1 none).procedure_type = .vStr "restricted" ∧
     (parse_tender nullOracle complexNotice 1 1 none).complexity_score = 40 ∧
     (parse_tender nullOracle complexNotice 1 1 none).complexity_level = "COMPLEX") := by
  constructor
  · intro o notice ln tl lids
    exact ⟨rfl, rfl⟩
  · refine ⟨by decide, by decide, by decide, by decide, by decide, by decide⟩

/-- C7 (witness): the spec's complexity example, via the theorem. -/
theorem complexity_rules_witness :
    (parse_tender nullOracle complexNotice 1 1 none).complexity_score = 40 ∧
    (parse_tender nullOracle complexNotice 1 1 none).complexity_level = "COMPLEX" :=
  ⟨complexity_rules.2.2.2.2.2.1, complexity_rules.2.2.2.2.2.2⟩

/-- C8: the expiry filter keeps a Tender iff it is in the input and its
days-until-deadline is not a non-null negative value — in particular every
null-deadline Tender is retained; a deadline 5 days out gives urgency
CRITICAL and survives the filter, a deadline 1 day past gives urgency
EXPIRED and is dropped. -/
theorem expiry_filter_rules :
    (∀ (tenders : List Tender) (t : Tender),
      t ∈ filter_active tenders ↔
        t ∈ tenders ∧ ¬ ∃ d : Int, t.days_until_deadline = some d ∧ d < 0) ∧
    (∀ (tenders : List Tender) (t : Tender),
      t ∈ tenders → t.days_until_deadline = none → t ∈ filter_active tenders) ∧
    ((parse_tender (constOracle 5) deadlineNotice 1 1 none).days_until_deadline = some 5 ∧
     (parse_tender (constOracle 5) deadlineNotice 1 1 none).urgency_level = "CRITICAL" ∧
     filter_active [parse_tender (constOracle 5) deadlineNotice 1 1 none] =
       [parse_tender (constOracle 5) deadlineNotice 1 1 none] ∧
     (parse_tender (constOracle (-1)) deadlineNotice 1 1 none).days_until_deadline =
       some (-1) ∧
     (parse_tender (constOracle (-1)) deadlineNotice 1 1 none).urgency_level = "EXPIRED" ∧
     filter_active [parse_tender (constOracle (-1)) deadlineNotice 1 1 none] = []) := by
  have hmain : ∀ (tenders : List Tender) (t : Tender),
      t ∈ filter_active tenders ↔
        t ∈ tenders ∧ ¬ ∃ d : Int, t.days_until_deadline = some d ∧ d < 0 := by
    intro tenders t
    unfold filter_active
    rw [List.mem_filter]
    apply and_congr_right
    intro _
    cases hd : t.days_until_deadline with
    | none => simp [hd]
    | some d =>
      simp only [hd, Option.some.injEq, decide_eq_true_eq]
      constructor
      · rintro h ⟨d', rfl, hlt⟩
        omega
      · intro h
        by_contra hneg
        exact h ⟨d, rfl, by omega⟩
  refine ⟨hmain, ?_, by decide, by decide, by rfl, by decide, by decide, by rfl⟩
  intro tenders t ht hnone
  exact (hmain tenders t).mpr ⟨ht, by simp [hnone]⟩

/-- C8 (witness): the filter characterization applied to the concrete
5-days-out Tender. -/
theorem expiry_filter_rules_witness :
    parse_tender (constOracle 5) deadlineNotice 1 1 none ∈
      filter_active [parse_tender (constOracle 5) deadlineNotice 1 1 none] :=
  (expiry_filter_rules.1 _ _).mpr
    ⟨by simp, by rintro ⟨d, hd, hlt⟩; revert hlt; rw [show d = 5 by
      have : (parse_tender (constOracle 5) deadlineNotice 1 1 none).days_until_deadline =
        some 5 := by decide
      rw [this] at hd; exact (Option.some.inj hd).symm]; decide⟩
